import Mathlib

/-!
Verification of the g3k vanity-PGP-key search engine (src/main.rs).

The embedding is shallow: the `Builder` struct and its methods (`new`, `gen`,
`backflow`, `fingerprint`, `armored`) are translated field-by-field from
`impl Builder`; the worker thread body (main.rs lines 107-123) becomes a step
function on an explicit worker state, iterated with a step counter; the
crossbeam channel becomes an explicit queue plus a live-sender count.

External collaborators (the `pgp` crate's key generation, fingerprinting and
armoring, `chrono` time, system entropy) are parameters: the key type `K` is
abstract, key generation is a function `factory : String → Int → Nat → Except
String K` (uid, creation timestamp, per-call entropy index), fingerprint bytes
are `fpB : K → List Nat`, and `Utc::now()` at each candidate anchor is a stream
`nowAt : Nat → Int`.  Timestamps are `Int` seconds (chrono second arithmetic is
exact for whole seconds); Rust strings are `List Char` where their contents
matter (hex fingerprints, the suffix) and `String` where opaque (the uid).
-/

namespace G3K

/-! ### Hex encoding (`hex::ToHex` on fingerprint bytes, main.rs line 85)

`encode_hex::<String>()` renders each byte as two lowercase hex digits,
most-significant nibble first. -/

/-- The lowercase hex digit for a nibble `n < 16`: `"0123456789abcdef"`. -/
def hexDigitChar (n : Nat) : Char :=
  if n < 10 then Char.ofNat (48 + n) else Char.ofNat (87 + n)

/-- Two lowercase hex digits of one byte, high nibble first. -/
def byteHex (b : Nat) : List Char :=
  [hexDigitChar (b / 16 % 16), hexDigitChar (b % 16)]

/-- `encode_hex` over a byte sequence: lowercase hex string as a char list. -/
def encodeHex (bs : List Nat) : List Char :=
  (bs.map byteHex).flatten

/-- Per-character lowercasing, modelling `str::to_lowercase` (main.rs line 101). -/
def toLowerL (s : List Char) : List Char :=
  s.map Char.toLower

/-- The match test as written at main.rs line 116: `fp.ends_with(&suffix)`.
`suffix` is the pre-lowercased suffix computed once at line 101. -/
def fpEndsWith (fp suffix : List Char) : Bool :=
  suffix.isSuffixOf fp

/-! ### The `Builder` struct (main.rs lines 44-95)

`kb : SecretKeyParamsBuilder` carries the uid and, after `gen` ran at least
once, the `created_at` parameter; `ct : DateTime<Utc>`; `k : Option<SecretKey>`.
-/

structure Builder (K : Type) where
  /-- the `primary_user_id` stored in `kb` at construction (line 59) -/
  uid : String
  /-- the `created_at` parameter of `kb`: unset until `gen` first runs (line 68) -/
  createdAt : Option Int
  /-- `ct`, the candidate creation timestamp -/
  ct : Int
  /-- `k`, the generated key if any -/
  k : Option K
deriving DecidableEq, Repr

/-- `Builder::new(uid)` (lines 53-65): fresh params with the given uid,
`ct = Utc::now()` (passed explicitly as `now`), no key. -/
def Builder.new (uid : String) (now : Int) : Builder K :=
  { uid := uid, createdAt := none, ct := now, k := none }

/-- `Builder::gen` (lines 67-76): store `ct` into the params' `created_at`,
then run the external build+generate; on success replace `k`, on failure leave
`k` as it was and report the error (the `Result<()>` is the `Option String`,
`none` meaning `Ok(())`). `e` is the entropy index of this generation call. -/
def Builder.gen (factory : String → Int → Nat → Except String K) (e : Nat)
    (b : Builder K) : Builder K × Option String :=
  let b1 : Builder K := { b with createdAt := some b.ct }
  match factory b1.uid b1.ct e with
  | .ok key => ({ b1 with k := some key }, none)
  | .error msg => (b1, some msg)

/-- `Builder::backflow` (lines 79-81): `ct = ct - Duration::seconds(1)`. -/
def Builder.backflow (b : Builder K) : Builder K :=
  { b with ct := b.ct - 1 }

/-- `Builder::fingerprint` (lines 83-88): error if no key was generated yet,
else the lowercase hex encoding of the key's fingerprint bytes. -/
def Builder.fingerprint (fpB : K → List Nat) (b : Builder K) :
    Except String (List Char) :=
  match b.k with
  | some key => .ok (encodeHex (fpB key))
  | none => .error "no key generated yet"

/-- Outcome of running a fallible Rust expression that may also panic. -/
inductive ExecResult (α : Type) where
  | ok : α → ExecResult α
  | err : String → ExecResult α
  | panicked : ExecResult α
deriving DecidableEq, Repr

/-- `Builder::armored` (lines 90-94): `self.k.as_ref().unwrap()` panics when
`k` is `None`; otherwise the external sign+armor runs and its `Result` is
returned. -/
def Builder.armored (signArmor : K → Except String String) (b : Builder K) :
    ExecResult String :=
  match b.k with
  | none => .panicked
  | some key =>
    match signArmor key with
    | .ok s => .ok s
    | .error e => .err e

/-! ### The worker thread body (main.rs lines 107-123)

```
let mut iterations: usize = 0;
loop {
    let mut builder = Builder::new(&args.uid);
    let mut backflow: usize = 0;
    while backflow < args.max_backflow {
        builder.backflow();
        builder.gen()?;
        let fp = builder.fingerprint()?;
        if fp.ends_with(&suffix) { sender.send((builder.clone(), iterations))?; }
        backflow += 1;
        iterations += 1;
    }
}
```

One `step` is either one inner-loop iteration, or — when the backflow budget of
the current candidate is exhausted — the outer loop's construction of a fresh
candidate.  An `Err` propagated by `?` terminates the thread; a dead worker
state is absorbing.  `send` is modelled by appending to the `sent` trace (the
receiver outlives the search loop, so the send itself does not fail). -/

structure SearchParams (K : Type) where
  /-- `args.uid` -/
  uid : String
  /-- `args.max_backflow` -/
  maxBackflow : Nat
  /-- `args.suffix.to_lowercase()`, computed once at main.rs line 101 -/
  suffix : List Char
  /-- the external build+generate of `Builder::gen` -/
  factory : String → Int → Nat → Except String K
  /-- the external fingerprint bytes of a key -/
  fpB : K → List Nat
  /-- `Utc::now()` observed at the j-th `Builder::new` of this worker -/
  nowAt : Nat → Int

structure WState (K : Type) where
  /-- `builder` of the current candidate -/
  builder : Builder K
  /-- the inner-loop counter `backflow` -/
  bf : Nat
  /-- `iterations`, declared outside the outer loop -/
  iterations : Nat
  /-- how many candidates (`Builder::new` calls) happened so far -/
  anchors : Nat
  /-- the messages this worker sent, in order -/
  sent : List (Builder K × Nat)
  /-- `some e` once the thread returned `Err(e)` through `?` -/
  err : Option String
deriving DecidableEq, Repr

/-- Worker state on entry to the first inner loop: first candidate anchored at
`nowAt 0`, zero backflow, zero iterations, nothing sent. -/
def initState (p : SearchParams K) : WState K :=
  { builder := Builder.new p.uid (p.nowAt 0), bf := 0, iterations := 0,
    anchors := 1, sent := [], err := none }

/-- One step of the worker thread. -/
def step (p : SearchParams K) (st : WState K) : WState K :=
  match st.err with
  | some _ => st
  | none =>
    if st.bf < p.maxBackflow then
      -- inner loop body: backflow, regenerate, test, maybe send, bump counters
      let g := Builder.gen p.factory st.iterations st.builder.backflow
      match g.2 with
      | some e => { st with builder := g.1, err := some e }
      | none =>
        match g.1.fingerprint p.fpB with
        | .error e => { st with builder := g.1, err := some e }
        | .ok fp =>
          { builder := g.1, bf := st.bf + 1, iterations := st.iterations + 1,
            anchors := st.anchors,
            sent := if fpEndsWith fp p.suffix then
                      st.sent ++ [(g.1, st.iterations)]
                    else st.sent,
            err := none }
    else
      -- outer loop: discard the candidate, anchor a fresh one at a new "now"
      { st with builder := Builder.new p.uid (p.nowAt st.anchors), bf := 0,
                anchors := st.anchors + 1 }

/-- The worker state after `n` steps. -/
def run (p : SearchParams K) : Nat → WState K
  | 0 => initState p
  | n + 1 => step p (run p n)

/-! ### The result channel (main.rs lines 102, 105, 117, 125)

`crossbeam_channel::unbounded()` hands `main` a `sender` and a `receiver`
(line 102).  One clone of `sender` moves into each spawned worker (line 105);
the original stays alive in `main` for the whole search.  `recv()` returns a
message if one is queued, returns `Err(RecvError)` only when every sender has
been dropped, and otherwise blocks. -/

structure Chan (α : Type) where
  /-- messages sent but not yet received -/
  queue : List α
  /-- senders still alive -/
  liveSenders : Nat

inductive RecvOutcome (α : Type) where
  | received : α → RecvOutcome α
  | disconnected : RecvOutcome α
  | blocked : RecvOutcome α
deriving DecidableEq, Repr

/-- What `receiver.recv()` does on a given channel state. -/
def recvStep (c : Chan α) : RecvOutcome α :=
  match c.queue with
  | m :: _ => .received m
  | [] => if c.liveSenders = 0 then .disconnected else .blocked

/-- The channel as `main` sees it at line 125: the queue holds the pending
worker messages, and the live senders are the clones of the still-running
workers plus the original `sender`, which `main` never drops. -/
def coordinatorChan (aliveWorkers : Nat) (pending : List α) : Chan α :=
  { queue := pending, liveSenders := aliveWorkers + 1 }

/-- The `for _ in 0..args.threads` loop at line 103 spawns one worker per
index. -/
def spawnCount (threads : Nat) : Nat := threads

/-- The diagnostic printed at main.rs line 126: the received local iteration
count times `args.threads`. -/
def totalIterations (localCount threads : Nat) : Nat :=
  localCount * threads

/-- The builder after one backflow + successful regeneration with key `key`. -/
def nextBuilder (b : Builder K) (key : K) : Builder K :=
  { uid := b.uid, createdAt := some (b.ct - 1), ct := b.ct - 1, k := some key }

/-- `testStep p st` holds when the step from `st` is a completed inner-loop
iteration: the worker is alive, the backflow budget is not exhausted, and the
regeneration succeeds (so the fingerprint is tested and both counters bump). -/
def testStep (p : SearchParams K) (st : WState K) : Bool :=
  st.err.isNone && decide (st.bf < p.maxBackflow) &&
    (Builder.gen p.factory st.iterations st.builder.backflow).2.isNone

/-- Whether an `ExecResult` is an error return (as opposed to a success or a
panic). -/
def isErr : ExecResult α → Bool
  | .err _ => true
  | _ => false

/-- A concrete worker instantiation whose key factory always fails: every
generation hits a `GenerationFailure`, so the worker dies on its first
iteration. -/
def failParams : SearchParams Unit :=
  { uid := "G3K", maxBackflow := 5, suffix := ['a', 'b'],
    factory := fun _ _ _ => Except.error "generation failed",
    fpB := fun _ => [], nowAt := fun _ => 100 }

/-- A concrete worker instantiation with a stub key factory that always
succeeds, and an empty target suffix (which every fingerprint matches). -/
def okParams : SearchParams Nat :=
  { uid := "G3K", maxBackflow := 3, suffix := [],
    factory := fun _ t e => Except.ok (t.natAbs + e),
    fpB := fun k => [k % 256], nowAt := fun _ => 10 }

/-! ### Step characterization lemmas -/

theorem gen_ok {K : Type} (factory : String → Int → Nat → Except String K)
    (e : Nat) (b : Builder K) (key : K)
    (h : factory b.uid b.ct e = Except.ok key) :
    Builder.gen factory e b = ({ b with createdAt := some b.ct, k := some key }, none) := by
  simp only [Builder.gen, h]

theorem gen_err {K : Type} (factory : String → Int → Nat → Except String K)
    (e : Nat) (b : Builder K) (m : String)
    (h : factory b.uid b.ct e = Except.error m) :
    Builder.gen factory e b = ({ b with createdAt := some b.ct }, some m) := by
  simp only [Builder.gen, h]

theorem step_dead {K : Type} (p : SearchParams K) (st : WState K)
    (h : st.err.isSome) : step p st = st := by
  unfold step
  match hm : st.err with
  | some e => rfl
  | none => rw [hm] at h; simp at h

theorem step_reanchor {K : Type} (p : SearchParams K) (st : WState K)
    (herr : st.err = none) (hbf : ¬ st.bf < p.maxBackflow) :
    step p st = { st with builder := Builder.new p.uid (p.nowAt st.anchors),
                          bf := 0, anchors := st.anchors + 1 } := by
  unfold step
  rw [herr]
  simp [hbf]

theorem step_success {K : Type} (p : SearchParams K) (st : WState K) (key : K)
    (herr : st.err = none) (hbf : st.bf < p.maxBackflow)
    (hfac : p.factory st.builder.uid (st.builder.ct - 1) st.iterations = Except.ok key) :
    step p st =
      { builder := nextBuilder st.builder key, bf := st.bf + 1,
        iterations := st.iterations + 1, anchors := st.anchors,
        sent := if fpEndsWith (encodeHex (p.fpB key)) p.suffix then
                  st.sent ++ [(nextBuilder st.builder key, st.iterations)]
                else st.sent,
        err := none } := by
  unfold step
  rw [herr]
  have hb : (st.builder.backflow).uid = st.builder.uid := rfl
  have hc : (st.builder.backflow).ct = st.builder.ct - 1 := rfl
  rw [if_pos hbf, gen_ok p.factory st.iterations st.builder.backflow key (by rw [hb, hc]; exact hfac)]
  simp only [Builder.fingerprint, Builder.backflow]
  rfl

theorem step_genfail {K : Type} (p : SearchParams K) (st : WState K) (m : String)
    (herr : st.err = none) (hbf : st.bf < p.maxBackflow)
    (hfac : p.factory st.builder.uid (st.builder.ct - 1) st.iterations = Except.error m) :
    step p st =
      { st with builder := { uid := st.builder.uid, createdAt := some (st.builder.ct - 1),
                             ct := st.builder.ct - 1, k := st.builder.k },
                err := some m } := by
  unfold step
  rw [herr]
  have hb : (st.builder.backflow).uid = st.builder.uid := rfl
  have hc : (st.builder.backflow).ct = st.builder.ct - 1 := rfl
  rw [if_pos hbf, gen_err p.factory st.iterations st.builder.backflow m (by rw [hb, hc]; exact hfac)]
  rfl

/-! ### Loop invariants -/

theorem iterations_step {K : Type} (p : SearchParams K) (st : WState K) :
    (step p st).iterations = st.iterations + (if testStep p st then 1 else 0) := by
  match herr : st.err with
  | some e =>
    rw [step_dead p st (by rw [herr]; rfl)]
    simp [testStep, herr]
  | none =>
    by_cases hbf : st.bf < p.maxBackflow
    · cases hfac : p.factory st.builder.uid (st.builder.ct - 1) st.iterations with
      | error m =>
        rw [step_genfail p st m herr hbf hfac]
        have h2 : (Builder.gen p.factory st.iterations st.builder.backflow).2 = some m :=
          by rw [gen_err p.factory st.iterations st.builder.backflow m hfac]
        simp [testStep, h2]
      | ok key =>
        rw [step_success p st key herr hbf hfac]
        have h2 : (Builder.gen p.factory st.iterations st.builder.backflow).2 = none :=
          by rw [gen_ok p.factory st.iterations st.builder.backflow key hfac]
        simp [testStep, herr, hbf, h2]
    · rw [step_reanchor p st herr hbf]
      simp [testStep, hbf]

theorem iterations_counts {K : Type} (p : SearchParams K) (n : Nat) :
    (run p n).iterations = (List.range n).countP (fun k => testStep p (run p k)) := by
  induction n with
  | zero => rfl
  | succ n ih =>
    rw [List.range_succ, List.countP_append]
    show (step p (run p n)).iterations = _
    rw [iterations_step p (run p n), ih]
    by_cases ht : testStep p (run p n) <;> simp [ht, List.countP_cons]

theorem sent_step {K : Type} (p : SearchParams K) (st : WState K)
    (h : (step p st).sent ≠ st.sent) :
    (step p st).sent = st.sent ++ [((step p st).builder, st.iterations)] ∧
      (step p st).iterations = st.iterations + 1 := by
  match herr : st.err with
  | some e =>
    rw [step_dead p st (by rw [herr]; rfl)] at h
    exact absurd rfl h
  | none =>
    by_cases hbf : st.bf < p.maxBackflow
    · cases hfac : p.factory st.builder.uid (st.builder.ct - 1) st.iterations with
      | error m =>
        rw [step_genfail p st m herr hbf hfac] at h
        exact absurd rfl h
      | ok key =>
        rw [step_success p st key herr hbf hfac] at h ⊢
        by_cases hm : fpEndsWith (encodeHex (p.fpB key)) p.suffix
        · refine ⟨?_, rfl⟩
          simp [hm]
        · simp only [hm, if_false] at h
          exact absurd rfl h
    · rw [step_reanchor p st herr hbf] at h
      exact absurd rfl h

theorem anchor_inv {K : Type} (p : SearchParams K) (n : Nat)
    (h : (run p n).err = none) :
    1 ≤ (run p n).anchors ∧ (run p n).bf ≤ p.maxBackflow ∧
      (run p n).builder.ct = p.nowAt ((run p n).anchors - 1) - (run p n).bf := by
  induction n with
  | zero => exact ⟨le_refl 1, Nat.zero_le _, by simp [run, initState, Builder.new]⟩
  | succ n ih =>
    match herr : (run p n).err with
    | some e =>
      have hd : run p (n + 1) = run p n := step_dead p (run p n) (by rw [herr]; rfl)
      rw [hd] at h
      rw [herr] at h
      cases h
    | none =>
      obtain ⟨ha, hb, hc⟩ := ih herr
      by_cases hbf : (run p n).bf < p.maxBackflow
      · cases hfac : p.factory (run p n).builder.uid ((run p n).builder.ct - 1)
            (run p n).iterations with
        | error m =>
          have : (run p (n+1)).err = some m := by
            show (step p (run p n)).err = some m
            rw [step_genfail p (run p n) m herr hbf hfac]
          rw [this] at h
          cases h
        | ok key =>
          have hs : run p (n+1) = _ := step_success p (run p n) key herr hbf hfac
          rw [hs]
          refine ⟨ha, hbf, ?_⟩
          simp only [nextBuilder]
          rw [hc]
          push_cast
          ring
      · have hs : run p (n+1) = _ := step_reanchor p (run p n) herr hbf
        rw [hs]
        exact ⟨Nat.le_succ_of_le ha, Nat.zero_le _, by simp [Builder.new]⟩

theorem key_inv {K : Type} (p : SearchParams K) (n : Nat)
    (h : (run p n).err = none) :
    (run p n).builder.k = none ∨
      ∃ key, (run p n).builder.k = some key ∧
        (run p n).builder.createdAt = some (run p n).builder.ct ∧
        1 ≤ (run p n).iterations ∧
        p.factory (run p n).builder.uid (run p n).builder.ct
          ((run p n).iterations - 1) = Except.ok key := by
  induction n with
  | zero => exact Or.inl rfl
  | succ n ih =>
    match herr : (run p n).err with
    | some e =>
      have hd : run p (n + 1) = run p n := step_dead p (run p n) (by rw [herr]; rfl)
      rw [hd] at h
      rw [herr] at h
      cases h
    | none =>
      by_cases hbf : (run p n).bf < p.maxBackflow
      · cases hfac : p.factory (run p n).builder.uid ((run p n).builder.ct - 1)
            (run p n).iterations with
        | error m =>
          have : (run p (n+1)).err = some m := by
            show (step p (run p n)).err = some m
            rw [step_genfail p (run p n) m herr hbf hfac]
          rw [this] at h
          cases h
        | ok key =>
          have hs : run p (n+1) = _ := step_success p (run p n) key herr hbf hfac
          rw [hs]
          exact Or.inr ⟨key, rfl, rfl, Nat.le_add_left 1 _, hfac⟩
      · have hs : run p (n+1) = _ := step_reanchor p (run p n) herr hbf
        rw [hs]
        exact Or.inl rfl

/-- Every message a worker ever sent carries, as its second component, the
worker's local `iterations` value at the step that sent it. -/
theorem sent_mem {K : Type} (p : SearchParams K) (n : Nat)
    (msg : Builder K × Nat) (h : msg ∈ (run p n).sent) :
    ∃ m, m < n ∧ msg.2 = (run p m).iterations := by
  induction n with
  | zero => cases h
  | succ n ih =>
    by_cases hs : (run p (n+1)).sent = (run p n).sent
    · rw [hs] at h
      obtain ⟨m, hm, he⟩ := ih h
      exact ⟨m, Nat.lt_succ_of_lt hm, he⟩
    · obtain ⟨happ, _⟩ := sent_step p (run p n) hs
      have happ2 : (run p (n+1)).sent =
          (run p n).sent ++ [((run p (n+1)).builder, (run p n).iterations)] := happ
      rw [happ2] at h
      rcases List.mem_append.mp h with hin | hone
      · obtain ⟨m, hm, he⟩ := ih hin
        exact ⟨m, Nat.lt_succ_of_lt hm, he⟩
      · rcases List.mem_singleton.mp hone with rfl
        exact ⟨n, Nat.lt_succ_self n, rfl⟩

/-! ### Hex lowercase facts -/

theorem hexDigit_lower : ∀ n, n < 16 → Char.toLower (hexDigitChar n) = hexDigitChar n := by
  decide

theorem byteHex_lower (b : Nat) : (byteHex b).map Char.toLower = byteHex b := by
  unfold byteHex
  rw [List.map_cons, List.map_cons, List.map_nil,
    hexDigit_lower _ (Nat.mod_lt _ (by decide)),
    hexDigit_lower _ (Nat.mod_lt _ (by decide))]

theorem encodeHex_lower : ∀ bs : List Nat, toLowerL (encodeHex bs) = encodeHex bs
  | [] => rfl
  | b :: bs => by
    show toLowerL (byteHex b ++ encodeHex bs) = byteHex b ++ encodeHex bs
    unfold toLowerL
    rw [List.map_append]
    have h1 := byteHex_lower b
    have h2 := encodeHex_lower bs
    unfold toLowerL at h2
    rw [h1, h2]

/-! ### The claims -/

/-- C1: the match test as performed in the worker loop (`fp.ends_with(&suffix)`
on the lowercase-hex fingerprint and the suffix lowercased once at startup)
succeeds iff the lowercase hex rendering of the fingerprint has the lowercase
form of the target suffix as a suffix; the empty suffix matches every
fingerprint, and a suffix longer than the fingerprint string matches none. -/
theorem match_predicate_spec (F : List Nat) (S : List Char) :
    (fpEndsWith (encodeHex F) (toLowerL S) = true ↔
      toLowerL S <:+ toLowerL (encodeHex F))
    ∧ fpEndsWith (encodeHex F) (toLowerL []) = true
    ∧ ((encodeHex F).length < (toLowerL S).length →
        fpEndsWith (encodeHex F) (toLowerL S) = false) := by
  refine ⟨?_, ?_, ?_⟩
  · rw [encodeHex_lower]
    exact List.isSuffixOf_iff_suffix
  · show List.isSuffixOf [] (encodeHex F) = true
    exact List.isSuffixOf_nil_left
  · intro h
    cases hE : fpEndsWith (encodeHex F) (toLowerL S) with
    | false => rfl
    | true =>
      have hsuf : toLowerL S <:+ encodeHex F := List.isSuffixOf_iff_suffix.mp hE
      have := hsuf.length_le
      omega

theorem match_predicate_spec_witness :
    fpEndsWith (encodeHex [171]) (toLowerL []) = true ∧
      fpEndsWith (encodeHex []) (toLowerL ['a']) = false :=
  ⟨(match_predicate_spec [171] []).2.1,
   (match_predicate_spec [] ['a']).2.2 (by decide)⟩

/-- C2: `backflow()` decreases `ct` by exactly one second and leaves the uid,
the key material and the stored `created_at` parameter untouched; `n` backflows
decrease `ct` by exactly `n` seconds. -/
theorem backflow_decrements {K : Type} (b : Builder K) (n : Nat) :
    (b.backflow.ct = b.ct - 1 ∧ b.backflow.uid = b.uid ∧ b.backflow.k = b.k ∧
      b.backflow.createdAt = b.createdAt)
    ∧ ((Builder.backflow)^[n] b).ct = b.ct - (n : Int) := by
  refine ⟨⟨rfl, rfl, rfl, rfl⟩, ?_⟩
  induction n with
  | zero => simp
  | succ n ih =>
    rw [Function.iterate_succ_apply']
    show ((Builder.backflow)^[n] b).ct - 1 = _
    rw [ih]
    push_cast
    ring

/-- C3 counterexample: on a freshly created `Builder` (no `gen` yet),
`armored` does not return an error value — it panics (the `unwrap()` at
main.rs line 91 aborts on `None`). -/
theorem armored_fresh_not_err :
    ((Builder.new "G3K" 0 : Builder Unit).armored (fun _ => Except.ok "ARMOR")
      = ExecResult.panicked)
    ∧ isErr ((Builder.new "G3K" 0 : Builder Unit).armored
        (fun _ => Except.ok "ARMOR")) = false :=
  ⟨rfl, rfl⟩

/-- C3 amended: calling `armored` on a Candidate on which no successful
generation has occurred (`k = None`) panics — it neither succeeds nor returns
an error value. -/
theorem armored_fresh_panics {K : Type} (signArmor : K → Except String String)
    (uid : String) (now : Int) (b : Builder K) (h : b.k = none) :
    (Builder.new uid now : Builder K).armored signArmor = ExecResult.panicked
    ∧ b.armored signArmor = ExecResult.panicked
    ∧ isErr (b.armored signArmor) = false := by
  refine ⟨rfl, ?_, ?_⟩
  · unfold Builder.armored
    rw [h]
  · unfold Builder.armored
    rw [h]
    rfl

theorem armored_fresh_panics_witness :
    ((Builder.new "x" 7 : Builder Unit).k = none)
    ∧ (Builder.new "G3K" 0 : Builder Unit).armored (fun _ => Except.ok "A")
        = ExecResult.panicked :=
  ⟨rfl, (armored_fresh_panics (fun _ => Except.ok "A") "G3K" 0
    (Builder.new "x" 7) rfl).1⟩

/-- C6: `fingerprint()` before any successful generation returns the error
`"no key generated yet"`; a successful `gen` stores a key, and whenever a key
is stored, `fingerprint()` returns the hex encoding of its fingerprint bytes,
which is already lowercase. -/
theorem fingerprint_gating {K : Type} (fpB : K → List Nat)
    (factory : String → Int → Nat → Except String K) (uid : String) (now : Int) :
    ((Builder.new uid now : Builder K).fingerprint fpB =
      Except.error "no key generated yet")
    ∧ (∀ (b : Builder K) (e : Nat),
        (Builder.gen factory e b).2 = none →
        ∃ key, (Builder.gen factory e b).1.k = some key)
    ∧ (∀ (b : Builder K) (key : K), b.k = some key →
        b.fingerprint fpB = Except.ok (encodeHex (fpB key)))
    ∧ (∀ bs : List Nat, toLowerL (encodeHex bs) = encodeHex bs) := by
  refine ⟨rfl, ?_, ?_, encodeHex_lower⟩
  · intro b e h
    cases hfac : factory b.uid b.ct e with
    | error m =>
      rw [gen_err factory e b m hfac] at h
      cases h
    | ok key =>
      rw [gen_ok factory e b key hfac]
      exact ⟨key, rfl⟩
  · intro b key h
    unfold Builder.fingerprint
    rw [h]

theorem fingerprint_gating_witness :
    ((Builder.new "G3K" 0 : Builder Nat).fingerprint (fun k => [k]) =
      Except.error "no key generated yet")
    ∧ ({ uid := "G3K", createdAt := some 0, ct := 0, k := some 7 } :
        Builder Nat).fingerprint (fun k => [k]) = Except.ok (encodeHex [7]) :=
  ⟨(fingerprint_gating (fun k => [k]) (fun _ _ _ => Except.ok 7) "G3K" 0).1,
   (fingerprint_gating (fun k => [k]) (fun _ _ _ => Except.ok 7) "G3K" 0).2.2.1
     _ 7 rfl⟩

/-- C4 counterexample: with `threads = 0` the spawn loop spawns nothing, and
the coordinator's `recv()` on the resulting channel state (empty queue, only
`main`'s own never-dropped sender alive) blocks — it does not yield an error
outcome such as a disconnection, and a fortiori no `NoWorkersSpawned` error
value (no such value exists anywhere in the program). -/
theorem zero_threads_not_error :
    spawnCount 0 = 0
    ∧ recvStep (coordinatorChan (α := Builder Unit × Nat) 0 []) =
        RecvOutcome.blocked
    ∧ recvStep (coordinatorChan (α := Builder Unit × Nat) 0 []) ≠
        RecvOutcome.disconnected :=
  ⟨rfl, rfl, fun h => RecvOutcome.noConfusion h⟩

/-- C4 amended: with `thread_count = 0` the coordinator spawns no workers, the
channel keeps exactly one live sender (the one `main` retains, line 102) and an
empty queue, and the receive at line 125 blocks forever instead of returning an
error. -/
theorem zero_threads_blocks (α : Type) :
    spawnCount 0 = 0
    ∧ (coordinatorChan (α := α) (spawnCount 0) []).liveSenders = 1
    ∧ recvStep (coordinatorChan (α := α) (spawnCount 0) []) =
        RecvOutcome.blocked :=
  ⟨rfl, rfl, rfl⟩

/-- C5: run at the failing input — one worker whose generations all fail.  The
worker dies on its first iteration having sent nothing and stays dead, and the
coordinator's receive on the resulting channel state (empty queue, zero alive
workers, `main`'s retained sender still alive) blocks instead of reporting the
channel closed: the `Err` path of `receiver.recv()?` is unreachable because
`main` never drops its own `sender`. -/
theorem all_workers_dead_blocks :
    (run failParams 1).err = some "generation failed"
    ∧ (run failParams 1).sent = []
    ∧ (∀ n, 1 ≤ n → run failParams n = run failParams 1)
    ∧ recvStep (coordinatorChan (α := Builder Unit × Nat) 0 []) =
        RecvOutcome.blocked
    ∧ recvStep (coordinatorChan (α := Builder Unit × Nat) 0 []) ≠
        RecvOutcome.disconnected := by
  refine ⟨rfl, rfl, ?_, rfl, fun h => RecvOutcome.noConfusion h⟩
  intro n hn
  induction n with
  | zero => cases hn
  | succ n ih =>
    match n, ih with
    | 0, _ => rfl
    | n + 1, ih =>
      have h1 : run failParams (n + 1) = run failParams 1 := ih (Nat.le_add_left 1 n)
      show step failParams (run failParams (n + 1)) = run failParams 1
      rw [h1]
      exact step_dead failParams (run failParams 1) rfl

theorem all_workers_dead_blocks_witness :
    1 ≤ 3 ∧ run failParams 3 = run failParams 1 :=
  ⟨by decide, all_workers_dead_blocks.2.2.1 3 (by decide)⟩

/-- C7: the diagnostic the coordinator prints for a received result is the
received local iteration count times `threads` (main.rs line 126), and the
local count of every message a worker sent is the worker's `iterations` value
at the step that sent it. -/
theorem total_iterations_approx {K : Type} (p : SearchParams K)
    (n threads : Nat) (msg : Builder K × Nat) (h : msg ∈ (run p n).sent) :
    totalIterations msg.2 threads = msg.2 * threads
    ∧ ∃ m, m < n ∧ msg.2 = (run p m).iterations :=
  ⟨rfl, sent_mem p n msg h⟩

theorem total_iterations_approx_witness :
    (({ uid := "G3K", createdAt := some 9, ct := 9, k := some 9 } : Builder Nat), 0) ∈
      (run okParams 1).sent
    ∧ totalIterations 0 4 = 0 * 4 :=
  ⟨by decide,
   (total_iterations_approx okParams 1 4
     (({ uid := "G3K", createdAt := some 9, ct := 9, k := some 9 } : Builder Nat), 0)
     (by decide)).1⟩

/-- C8: while a worker is alive, the inner-loop counter never exceeds
`max_backflow`; the candidate's timestamp sits exactly `bf` seconds below its
anchor (the `now` of its creation), hence never more than `max_backflow`
seconds below it; and the moment the counter reaches `max_backflow` — i.e.
after exactly `max_backflow` backflow+regenerate+test iterations on this
candidate — the next step discards the candidate and anchors a fresh one at a
new current time. -/
theorem backflow_budget {K : Type} (p : SearchParams K) (n : Nat)
    (h : (run p n).err = none) :
    (run p n).bf ≤ p.maxBackflow
    ∧ p.nowAt ((run p n).anchors - 1) - (run p n).builder.ct = ((run p n).bf : Int)
    ∧ p.nowAt ((run p n).anchors - 1) - (run p n).builder.ct ≤ (p.maxBackflow : Int)
    ∧ ((run p n).bf = p.maxBackflow →
        run p (n + 1) = { run p n with
          builder := Builder.new p.uid (p.nowAt (run p n).anchors),
          bf := 0, anchors := (run p n).anchors + 1 }) := by
  obtain ⟨_, hb, hc⟩ := anchor_inv p n h
  have h2 : p.nowAt ((run p n).anchors - 1) - (run p n).builder.ct =
      ((run p n).bf : Int) := by
    rw [hc]; ring
  refine ⟨hb, h2, ?_, ?_⟩
  · rw [h2]; exact_mod_cast hb
  · intro heq
    exact step_reanchor p (run p n) h (by omega)

theorem backflow_budget_witness :
    (run okParams 2).err = none ∧ (run okParams 2).bf ≤ okParams.maxBackflow :=
  ⟨by decide, (backflow_budget okParams 2 (by decide)).1⟩

/-- C9: `gen` always stores the candidate's current timestamp into the params'
`created_at` before building, a successful `gen` stores exactly the key the
factory produced for the current uid and timestamp without moving the
timestamp, and in every reachable live worker state the stored key (if any)
was produced by the factory at the candidate's *current* timestamp — stale key
material is never observable at a test point. -/
theorem key_consistency {K : Type} (factory : String → Int → Nat → Except String K)
    (e : Nat) (b : Builder K) (p : SearchParams K) (n : Nat)
    (h : (run p n).err = none) :
    ((Builder.gen factory e b).1.createdAt = some b.ct)
    ∧ ((Builder.gen factory e b).2 = none →
        ∃ key, factory b.uid b.ct e = Except.ok key ∧
          (Builder.gen factory e b).1.k = some key ∧
          (Builder.gen factory e b).1.ct = b.ct)
    ∧ ((run p n).builder.k = none ∨
        ∃ key, (run p n).builder.k = some key ∧
          (run p n).builder.createdAt = some (run p n).builder.ct ∧
          1 ≤ (run p n).iterations ∧
          p.factory (run p n).builder.uid (run p n).builder.ct
            ((run p n).iterations - 1) = Except.ok key) := by
  refine ⟨?_, ?_, key_inv p n h⟩
  · cases hfac : factory b.uid b.ct e with
    | error m => rw [gen_err factory e b m hfac]
    | ok key => rw [gen_ok factory e b key hfac]
  · intro hg
    cases hfac : factory b.uid b.ct e with
    | error m =>
      rw [gen_err factory e b m hfac] at hg
      cases hg
    | ok key =>
      rw [gen_ok factory e b key hfac]
      exact ⟨key, rfl, rfl, rfl⟩

theorem key_consistency_witness :
    (run okParams 1).err = none
    ∧ (Builder.gen (fun _ _ _ => Except.ok (0 : Nat)) 0
        (Builder.new "x" 5 : Builder Nat)).1.createdAt = some 5 :=
  ⟨by decide,
   (key_consistency (fun _ _ _ => Except.ok (0 : Nat)) 0
     (Builder.new "x" 5) okParams 1 (by decide)).1⟩

/-- C10: whenever a step changes the sent-message trace, it appends exactly one
message whose count is the worker's `iterations` value *before* this step (the
counter bumps only after the potential send, so the count is the number of
completed iterations strictly before the matching test); steps that are not
completed inner iterations — in particular re-anchoring — leave `iterations`
unchanged; and `iterations` always equals the number of completed
backflow+regenerate+test iterations so far, accumulated across candidates. -/
theorem iteration_count_semantics {K : Type} (p : SearchParams K) (n : Nat) :
    ((run p (n + 1)).sent ≠ (run p n).sent →
        (run p (n + 1)).sent =
          (run p n).sent ++ [((run p (n + 1)).builder, (run p n).iterations)]
        ∧ (run p (n + 1)).iterations = (run p n).iterations + 1)
    ∧ (testStep p (run p n) = false →
        (run p (n + 1)).iterations = (run p n).iterations)
    ∧ (run p n).iterations =
        (List.range n).countP (fun k => testStep p (run p k)) := by
  refine ⟨fun hne => sent_step p (run p n) hne, ?_, iterations_counts p n⟩
  intro ht
  show (step p (run p n)).iterations = _
  rw [iterations_step p (run p n), ht]
  simp

theorem iteration_count_semantics_witness :
    (run okParams 1).sent ≠ (run okParams 0).sent
    ∧ ((run okParams 1).sent =
        (run okParams 0).sent ++ [((run okParams 1).builder, (run okParams 0).iterations)]
      ∧ (run okParams 1).iterations = (run okParams 0).iterations + 1) :=
  ⟨by decide, (iteration_count_semantics okParams 0).1 (by decide)⟩

end G3K
